import Mathlib

/-!
# Shallow embedding of the receipt-processor service

This file embeds the core of the `receipt-processor` Go repository:

* `models/receipt.go` — the data model (`Item`, `Receipt`), the in-memory
  store (`ReceiptStore`, `AddReceipt`, `GetReceipt`) and the points engine
  (`CalculatePoints` with its helpers `countAlphanumeric`,
  `isRoundDollarAmount`, `isMultipleOf25Cents`, `isDayOdd`,
  `isTimeBetween2And4PM`);
* the validation helpers (`IsValidDateFormat`, `IsValidTimeFormat`,
  `IsValidCurrencyFormat`) and the handler-level `validateReceipt`,
  `ProcessReceipt` / `GetPoints` pipeline.

Strings are modelled as Lean `String` (a list of Unicode code points, as Go
ranges over runes).  Go `float64` arithmetic (`strconv.ParseFloat`, the
products `val * 100` and `price * 0.2`) is modelled exactly: a rational
value is rounded to the nearest binary64 value (round-to-nearest,
ties-to-even, 53-bit significand) by `float64Round`; the model covers the
normal range of binary64 (all values arising below are far inside it).
Go stdlib parsers (`strconv.ParseFloat`, `time.Parse`) are modelled on the
input forms the repository can feed them, as documented at each definition.
-/

/-! ## Character and digit helpers -/

/-- Numeric value of an ASCII digit character (Go `c - '0'`). -/
def dv (c : Char) : Nat := c.toNat - 48

/-- ASCII digit test, as Go `'0' <= c && c <= '9'` (both Go `regexp`'s `\d`
and `time`'s `isDigit` are ASCII-only). -/
def isDigitChar (c : Char) : Bool := 48 ≤ c.toNat && c.toNat ≤ 57

/-- Split a character list into its longest ASCII-digit prefix and the rest. -/
def takeDigits : List Char → List Char × List Char
  | [] => ([], [])
  | c :: cs =>
    if isDigitChar c then
      let (ds, rest) := takeDigits cs
      (c :: ds, rest)
    else ([], c :: cs)

/-- Value of a digit string read left to right (Go `atoi` on digits). -/
def digitsToNat (cs : List Char) : Nat := cs.foldl (fun a c => 10 * a + dv c) 0

/-! ## Exact model of binary64 (Go `float64`) rounding

`float64Round q` is the IEEE-754 binary64 value nearest to the rational `q`
(ties to even), returned as the exact rational it denotes.  Only the normal
range is modelled (|q| < 2^1024 after rounding, |q| ≥ 2^(-1022) when
nonzero); every value manipulated by the repository's claims is inside it. -/

/-- `q * 2^e` for a rational `q` and integer exponent `e`, written with
`Rat.divInt` and integer arithmetic so that the kernel can evaluate it. -/
def qmulPow2 (q : ℚ) (e : ℤ) : ℚ :=
  if 0 ≤ e then Rat.divInt (q.num * Int.ofNat (2 ^ e.toNat)) (Int.ofNat q.den)
  else Rat.divInt q.num (Int.ofNat (q.den * 2 ^ (-e).toNat))

/-- Product of two rationals, written with `Rat.divInt` and integer
arithmetic so that the kernel can evaluate it. -/
def qmul (a b : ℚ) : ℚ := Rat.divInt (a.num * b.num) (Int.ofNat (a.den * b.den))

/-- Binade exponent of a positive rational: starting from `(q, 0)`, doubles
or halves until the running value lies in `[1, 2)`, returning the exponent
`e` with `2^e ≤ q < 2^(e+1)`.  Fuel 4200 covers the binary64 range. -/
def normExp : Nat → ℚ → ℤ → ℤ
  | 0, _, e => e
  | fuel + 1, q, e =>
    if q < 1 then normExp fuel (qmulPow2 q 1) (e - 1)
    else if 2 ≤ q then normExp fuel (qmulPow2 q (-1)) (e + 1)
    else e

/-- Round a rational to the nearest integer, ties to even.  The fractional
part `q - ⌊q⌋ = (q.num - ⌊q⌋·q.den)/q.den` is compared with `1/2` by
cross-multiplication. -/
def roundHalfEvenQ (q : ℚ) : ℤ :=
  let f := Rat.floor q
  let fn := q.num - f * Int.ofNat q.den
  if 2 * fn < Int.ofNat q.den then f
  else if Int.ofNat q.den < 2 * fn then f + 1
  else if f % 2 = 0 then f else f + 1

/-- Round a positive rational to the nearest binary64 value (normal range):
scale into `[2^52, 2^53)`, round the significand to an integer (ties to
even), and scale back. -/
def float64RoundPos (q : ℚ) : ℚ :=
  let e := normExp 4200 q 0
  qmulPow2 (Rat.divInt (roundHalfEvenQ (qmulPow2 q (52 - e))) 1) (e - 52)

/-- Round a rational to the nearest binary64 value (normal range). -/
def float64Round (q : ℚ) : ℚ :=
  if q = 0 then 0
  else if q < 0 then -float64RoundPos (-q)
  else float64RoundPos q

/-- Smallest rational that rounds to binary64 infinity:
`2^1024 - 2^970 = 2^970 * (2^54 - 1)`, written with small exponents so the
elaborator evaluates it. -/
def float64Overflow : ℚ := Rat.divInt (Int.ofNat (((2 ^ 97) ^ 10) * (2 ^ 54 - 1))) 1

/-! ## Model of `strconv.ParseFloat(s, 64)`

The repository feeds `ParseFloat` arbitrary request strings.  The model
covers the plain decimal forms `[+-]digits[.digits]` / `[+-].digits`
(rejecting everything else); the exponent, hexadecimal, `Inf`/`NaN` and
underscore forms accepted by the real `ParseFloat` are never produced by
the receipts considered in the claims.  A successful parse returns the
exact rational denoted by the binary64 value `ParseFloat` would return;
values that overflow binary64 are rejected, as `ParseFloat` then reports
`ErrRange` and the repository treats that error as a failed parse. -/

/-- Parse an unsigned decimal `digits[.digits]` / `.digits` to its exact
rational value `(integer digits · 10^k + fraction digits) / 10^k`. -/
def parseUnsignedQ (cs : List Char) : Option ℚ :=
  let (ip, rest) := takeDigits cs
  match rest with
  | [] => if ip.isEmpty then none else some (Rat.divInt (Int.ofNat (digitsToNat ip)) 1)
  | '.' :: rest2 =>
    let (fp, rest3) := takeDigits rest2
    if rest3.isEmpty && !(ip.isEmpty && fp.isEmpty) then
      some (Rat.divInt
        (Int.ofNat (digitsToNat ip * 10 ^ fp.length + digitsToNat fp))
        (Int.ofNat (10 ^ fp.length)))
    else none
  | _ => none

/-- Round a parsed decimal value to binary64, failing on overflow
(`ParseFloat` returns `ErrRange` there and the callers treat it as a
parse failure). -/
def roundParsed (q : ℚ) : Option ℚ :=
  if q < 0 then
    if -q < float64Overflow then some (float64Round q) else none
  else if q < float64Overflow then some (float64Round q) else none

/-- Model of Go `strconv.ParseFloat(s, 64)` (decimal forms; see above):
an optional sign, then an unsigned decimal, rounded to binary64. -/
def parseGoFloat (s : String) : Option ℚ :=
  match s.data with
  | [] => none
  | c :: cs =>
    if c = '+' then (parseUnsignedQ cs).bind roundParsed
    else if c = '-' then ((parseUnsignedQ cs).map Neg.neg).bind roundParsed
    else (parseUnsignedQ (c :: cs)).bind roundParsed

/-- The Go constant `0.2` as the exact binary64 value it denotes. -/
def goFloat02 : ℚ := float64Round (Rat.divInt 1 5)

/-- Truncation of a rational toward zero. -/
def truncQ (q : ℚ) : ℤ := if q < 0 then -Rat.floor (-q) else Rat.floor q

/-- Exact ceiling of a rational, `⌈q⌉ = -⌊-q⌋`. -/
def ceilQ (q : ℚ) : ℤ := -Rat.floor (-q)

/-- Lower bound of Go's `int`: the type is 64 bits wide on the builds the
repository targets (`golang:1.21` on a 64-bit platform). -/
def goInt64Min : ℤ := -(2 ^ 63)

/-- Upper bound of Go's 64-bit `int`. -/
def goInt64Max : ℤ := 2 ^ 63 - 1

/-- Go's conversion `int(x)` of a `float64`: truncation toward zero when
the truncated value is representable in 64 bits.  An out-of-range result
is implementation-dependent in Go; it is modelled as on amd64
(`CVTTSD2SI`): `MinInt64`.  (On arm64 the conversion saturates to
`MaxInt64`/`MinInt64` instead; every concrete value proved below is in
range except where a theorem says otherwise.) -/
def goTrunc (q : ℚ) : ℤ :=
  if goInt64Min ≤ truncQ q ∧ truncQ q ≤ goInt64Max then truncQ q else goInt64Min

/-- Go's `int(math.Ceil(x))` of a `float64` (`math.Ceil` is exact on
binary64): the exact ceiling when representable in 64 bits, otherwise the
implementation-dependent out-of-range result, modelled as on amd64:
`MinInt64`. -/
def goCeil (q : ℚ) : ℤ :=
  if goInt64Min ≤ ceilQ q ∧ ceilQ q ≤ goInt64Max then ceilQ q else goInt64Min

/-! ## The validation format helpers (`models`, validation file)

`IsValidCurrencyFormat` is Go `regexp.MatchString` with the anchored
pattern `^\d+\.\d{2}$`; `isRoundDollarAmount` (further below) uses the
right-unanchored `^\d+\.00`.  Both are deterministic here because `\d+`
can only end at the first non-digit. -/

/-- Matcher for the tail of `^\d+\.\d{2}$` after at least one digit:
either more digits, or `.` followed by exactly two digits.  (`\d+` ends at
the first non-digit, so the branches cannot overlap: `.` is not a digit.) -/
def matchCurrencyRest : List Char → Bool
  | [] => false
  | c :: cs =>
    if c = '.' then
      match cs with
      | [d1, d2] => isDigitChar d1 && isDigitChar d2
      | _ => false
    else isDigitChar c && matchCurrencyRest cs

/-- Go `IsValidCurrencyFormat`: the string matches `^\d+\.\d{2}$`. -/
def IsValidCurrencyFormat (amount : String) : Bool :=
  match amount.data with
  | c :: cs => isDigitChar c && matchCurrencyRest cs
  | [] => false

/-! ## Model of `time.Parse`

`IsValidDateFormat` and `IsValidTimeFormat` call `time.Parse` with the
layouts `"2006-01-02"` and `"15:04"`.  `time.Parse` consumes the input
with `getnum`: a two-digit verb (`01`, `02`, `04`) demands exactly two
ASCII digits, while the hour verb `15` accepts one or two digits; the
four-digit year takes exactly four digits.  Parsed fields are
range-checked (hour 0–23, minute 0–59, month 1–12, day 1–days-in-month
with leap years), and leftover input is an error. -/

/-- Go `time`'s `getnum`: read one or two ASCII digits (`fixed` demands
exactly two), returning the value and the remaining input. -/
def getnum2 (fixed : Bool) : List Char → Option (Nat × List Char)
  | [] => none
  | c1 :: rest =>
    if isDigitChar c1 then
      match rest with
      | c2 :: rest2 =>
        if isDigitChar c2 then some (10 * dv c1 + dv c2, rest2)
        else if fixed then none
        else some (dv c1, rest)
      | [] => if fixed then none else some (dv c1, [])
    else none

/-- Go `isLeap`: year divisible by 4 and (not by 100 or by 400). -/
def isLeapYear (y : Nat) : Bool := y % 4 == 0 && (y % 100 != 0 || y % 400 == 0)

/-- Go `daysIn(m, year)` for a month already checked to be in 1–12. -/
def daysInMonth (y m : Nat) : Nat :=
  if m = 2 then (if isLeapYear y then 29 else 28)
  else if m = 4 ∨ m = 6 ∨ m = 9 ∨ m = 11 then 30
  else 31

/-- Model of `time.Parse("2006-01-02", s)`, returning year, month and day
on success: four-digit year, `-`, two-digit month in 1–12, `-`, two-digit
day in 1–days-in-month, nothing left over. -/
def parseDate (s : String) : Option (Nat × Nat × Nat) :=
  match s.data with
  | y1 :: y2 :: y3 :: y4 :: rest =>
    if isDigitChar y1 && isDigitChar y2 && isDigitChar y3 && isDigitChar y4 then
      let y := 1000 * dv y1 + 100 * dv y2 + 10 * dv y3 + dv y4
      match rest with
      | '-' :: rest2 =>
        match getnum2 true rest2 with
        | some (mo, rest3) =>
          if 1 ≤ mo ∧ mo ≤ 12 then
            match rest3 with
            | '-' :: rest4 =>
              match getnum2 true rest4 with
              | some (d, rest5) =>
                if rest5 = [] ∧ 1 ≤ d ∧ d ≤ daysInMonth y mo then some (y, mo, d)
                else none
              | none => none
            | _ => none
          else none
        | none => none
      | _ => none
    else none
  | _ => none

/-- Model of `time.Parse("15:04", s)`, returning hour and minute on
success: one- or two-digit hour in 0–23, `:`, two-digit minute in 0–59,
nothing left over. -/
def parseHM (s : String) : Option (Nat × Nat) :=
  match getnum2 false s.data with
  | some (h, rest) =>
    if h ≤ 23 then
      match rest with
      | ':' :: rest2 =>
        match getnum2 true rest2 with
        | some (m, rest3) =>
          if m ≤ 59 ∧ rest3 = [] then some (h, m) else none
        | none => none
      | _ => none
    else none
  | none => none

/-- Go `IsValidDateFormat`: `time.Parse("2006-01-02", date)` succeeds. -/
def IsValidDateFormat (date : String) : Bool := (parseDate date).isSome

/-- Go `IsValidTimeFormat`: `time.Parse("15:04", timeStr)` succeeds. -/
def IsValidTimeFormat (timeStr : String) : Bool := (parseHM timeStr).isSome

/-! ## Unicode helpers used by the points engine

`countAlphanumeric` ranges over the string's runes and tests
`unicode.IsLetter || unicode.IsDigit`; `strings.TrimSpace` trims runes
with `unicode.IsSpace`.  Both classifications are modelled on the Latin-1
block, which covers every character the claims exercise; the higher
Unicode tables are elided. -/

/-- `unicode.IsLetter`, restricted to the Latin-1 block. -/
def goIsLetter (c : Char) : Bool :=
  let n := c.toNat
  (65 ≤ n && n ≤ 90) || (97 ≤ n && n ≤ 122) ||
  n == 0xAA || n == 0xB5 || n == 0xBA ||
  (0xC0 ≤ n && n ≤ 0xD6) || (0xD8 ≤ n && n ≤ 0xF6) || (0xF8 ≤ n && n ≤ 0xFF)

/-- `unicode.IsDigit`, restricted to the Latin-1 block (only ASCII `0–9`
are decimal digits there). -/
def goIsDigit (c : Char) : Bool := isDigitChar c

/-- `unicode.IsSpace`, restricted to the Latin-1 block. -/
def goIsSpace (c : Char) : Bool :=
  let n := c.toNat
  (9 ≤ n && n ≤ 13) || n == 32 || n == 0x85 || n == 0xA0

/-- `strings.TrimSpace` on the rune list. -/
def goTrimSpace (cs : List Char) : List Char :=
  ((cs.dropWhile goIsSpace).reverse.dropWhile goIsSpace).reverse

/-- Go `len` of the string holding these runes: its UTF-8 byte count. -/
def utf8Len (cs : List Char) : Nat := (cs.map Char.utf8Size).sum

/-! ## Data model (`models/receipt.go`) -/

/-- An item on a receipt. -/
structure Item where
  shortDescription : String
  price : String
deriving DecidableEq, Repr

/-- A receipt with purchasing information.  `id` is empty until stored and
`points` zero until scored (Go zero values). -/
structure Receipt where
  id : String := ""
  retailer : String
  purchaseDate : String
  purchaseTime : String
  items : List Item
  total : String
  points : ℤ := 0
deriving DecidableEq, Repr

/-! ## The points engine (`CalculatePoints` and helpers) -/

/-- Go `countAlphanumeric`: the number of letter-or-digit runes. -/
def countAlphanumeric (s : String) : ℤ :=
  ((s.data.filter (fun c => goIsLetter c || goIsDigit c)).length : ℤ)

/-- Go `isRoundDollarAmount`: the string matches the right-unanchored
pattern `^\d+\.00` — tail of the match after at least one digit.  (`\d+`
ends at the first non-digit, so the branches cannot overlap.) -/
def matchRoundRest : List Char → Bool
  | [] => false
  | c :: cs =>
    if c = '.' then
      match cs with
      | '0' :: '0' :: _ => true
      | _ => false
    else isDigitChar c && matchRoundRest cs

/-- Go `isRoundDollarAmount`: `regexp` match of `^\d+\.00`. -/
def isRoundDollarAmount (total : String) : Bool :=
  match total.data with
  | c :: cs => isDigitChar c && matchRoundRest cs
  | [] => false

/-- Go `isMultipleOf25Cents`: parse the total as a `float64`, multiply by
100, truncate to `int` and test divisibility by 25. -/
def isMultipleOf25Cents (total : String) : Bool :=
  match parseGoFloat total with
  | none => false
  | some val => goTrunc (float64Round (qmul val (Rat.divInt 100 1))) % 25 == 0

/-- Go `isDayOdd`: parse the date and test the day for oddness. -/
def isDayOdd (purchaseDate : String) : Bool :=
  match parseDate purchaseDate with
  | none => false
  | some (_, _, d) => d % 2 == 1

/-- Go `isTimeBetween2And4PM`: parse the time and test
`840 < hour*60+minute < 960`. -/
def isTimeBetween2And4PM (purchaseTime : String) : Bool :=
  match parseHM purchaseTime with
  | none => false
  | some (h, m) =>
    let timeInMinutes := h * 60 + m
    840 < timeInMinutes && timeInMinutes < 960

/-- The rule-5 loop body of `CalculatePoints`: if the trimmed description's
byte length is a positive multiple of 3, `int(math.Ceil(price * 0.2))`
with the parsed `float64` price, else 0 (also 0 when the parse fails). -/
def itemPoints (item : Item) : ℤ :=
  let trimmedDesc := goTrimSpace item.shortDescription.data
  if utf8Len trimmedDesc % 3 == 0 && utf8Len trimmedDesc > 0 then
    match parseGoFloat item.price with
    | some price => goCeil (float64Round (qmul price goFloat02))
    | none => 0
  else 0

/-- Go `CalculatePoints`, accumulating the seven rules in order exactly as
the source does. -/
def CalculatePoints (receipt : Receipt) : ℤ :=
  let points : ℤ := countAlphanumeric receipt.retailer
  let points := if isRoundDollarAmount receipt.total then points + 50 else points
  let points := if isMultipleOf25Cents receipt.total then points + 25 else points
  let points := points + ((receipt.items.length / 2 : ℕ) : ℤ) * 5
  let points := receipt.items.foldl (fun acc item => acc + itemPoints item) points
  let points := if isDayOdd receipt.purchaseDate then points + 6 else points
  let points := if isTimeBetween2And4PM receipt.purchaseTime then points + 10 else points
  points

/-! ### The seven rule contributions, named for the specification -/

/-- R2: 50 points for a round dollar amount. -/
def rule2Points (r : Receipt) : ℤ := if isRoundDollarAmount r.total then 50 else 0

/-- R3: 25 points when the total is seen as a multiple of 0.25. -/
def rule3Points (r : Receipt) : ℤ := if isMultipleOf25Cents r.total then 25 else 0

/-- R6: 6 points for an odd purchase day. -/
def rule6Points (r : Receipt) : ℤ := if isDayOdd r.purchaseDate then 6 else 0

/-- R7: 10 points for a purchase time strictly between 14:00 and 16:00. -/
def rule7Points (r : Receipt) : ℤ := if isTimeBetween2And4PM r.purchaseTime then 10 else 0

/-! ## The receipt store (`ReceiptStore`) and handler pipeline

`uuid.New().String()` is an external source of identifiers; it is modelled
by passing the freshly generated identifier as an argument. -/

/-- The in-memory receipt store: the Go map is modelled as a lookup
function. -/
structure ReceiptStore where
  receipts : String → Option Receipt

/-- Go `NewReceiptStore`: an empty map. -/
def NewReceiptStore : ReceiptStore := ⟨fun _ => none⟩

/-- Go `AddReceipt`: stamp the receipt with the fresh identifier, store it
under that identifier, and return the identifier. -/
def AddReceipt (rs : ReceiptStore) (fresh : String) (receipt : Receipt) :
    ReceiptStore × String :=
  let stamped := { receipt with id := fresh }
  (⟨fun k => if k = fresh then some stamped else rs.receipts k⟩, fresh)

/-- Go `GetReceipt`: map lookup. -/
def GetReceipt (rs : ReceiptStore) (id : String) : Option Receipt :=
  rs.receipts id

/-- The storage step of the `ProcessReceipt` handler, after validation:
attach the computed points, then `AddReceipt`. -/
def processStore (rs : ReceiptStore) (fresh : String) (receipt : Receipt) :
    ReceiptStore × String :=
  AddReceipt rs fresh { receipt with points := CalculatePoints receipt }

/-- The lookup step of the `GetPoints` handler: the stored receipt's
points, or not-found. -/
def getPointsOf (rs : ReceiptStore) (id : String) : Option ℤ :=
  (GetReceipt rs id).map Receipt.points

/-! ## The validator (`validateReceipt` in the handlers file) -/

/-- The validation failure shapes the validator produces:
`NewMissingFieldError` and `NewInvalidFormatError`. -/
inductive ValidationError where
  | missingField (field : String)
  | invalidFormat (field : String) (value : String)
deriving DecidableEq, Repr

/-- The item index as the validator renders it: Go `string(rune(i))`, the
single character with code point `i` (faithful for `i < 0xD800`, i.e. for
any request of fewer than 55296 items). -/
def itemIdxString (i : Nat) : String := String.singleton (Char.ofNat i)

/-- The per-item loop of `validateReceipt`, from index `i`: first failure
wins, `none` when every item passes. -/
def validateItems (i : Nat) : List Item → Option ValidationError
  | [] => none
  | item :: rest =>
    if item.shortDescription = "" then
      some (.missingField ("items[" ++ itemIdxString i ++ "].shortDescription"))
    else if item.price = "" then
      some (.missingField ("items[" ++ itemIdxString i ++ "].price"))
    else if !IsValidCurrencyFormat item.price then
      some (.invalidFormat ("items[" ++ itemIdxString i ++ "].price") item.price)
    else validateItems (i + 1) rest

/-- Go `validateReceipt`: the check sequence of the handlers file, first
failure wins; `none` is success. -/
def validateReceipt (receipt : Receipt) : Option ValidationError :=
  if receipt.retailer = "" then some (.missingField "retailer")
  else if receipt.purchaseDate = "" then some (.missingField "purchaseDate")
  else if receipt.purchaseTime = "" then some (.missingField "purchaseTime")
  else if receipt.total = "" then some (.missingField "total")
  else if receipt.items = [] then some (.missingField "items")
  else if !IsValidDateFormat receipt.purchaseDate then
    some (.invalidFormat "purchaseDate" receipt.purchaseDate)
  else if !IsValidTimeFormat receipt.purchaseTime then
    some (.invalidFormat "purchaseTime" receipt.purchaseTime)
  else if !IsValidCurrencyFormat receipt.total then
    some (.invalidFormat "total" receipt.total)
  else validateItems 0 receipt.items

/-! ## Specification-side format predicates

These are written from the specification's wording, independently of the
parsing code: a field is format-valid when the *string itself* has the
stated shape.  They are compared with the code's parser-based checks in
the claim theorems. -/

/-- Spec wording for the currency format: one or more digits, a decimal
point, exactly two digits (stated on the string's shape). -/
def specCurrencyB (s : String) : Bool :=
  match s.data.reverse with
  | d2 :: d1 :: '.' :: rest =>
    isDigitChar d1 && isDigitChar d2 && !rest.isEmpty && rest.all isDigitChar
  | _ => false

/-- Spec wording for `purchaseTime` read strictly: 24-hour `HH:MM` with a
two-digit zero-padded hour. -/
def strictTimeB (s : String) : Bool :=
  match s.data with
  | [h1, h2, ':', m1, m2] =>
    if isDigitChar h1 ∧ isDigitChar h2 ∧ isDigitChar m1 ∧ isDigitChar m2 then
      if 10 * dv h1 + dv h2 ≤ 23 ∧ 10 * dv m1 + dv m2 ≤ 59 then true else false
    else false
  | _ => false

/-- The time format the code actually accepts, stated on the string's
shape: `HH:MM` or `H:MM`, hour 0–23, minute 0–59. -/
def lenientTimeB (s : String) : Bool :=
  strictTimeB s ||
  match s.data with
  | [h1, ':', m1, m2] =>
    if isDigitChar h1 ∧ isDigitChar m1 ∧ isDigitChar m2 then
      if 10 * dv m1 + dv m2 ≤ 59 then true else false
    else false
  | _ => false

/-- Spec wording for `purchaseDate`: matches `YYYY-MM-DD` and denotes a
real calendar date (month 1–12, day 1 to the days of that month, leap
years included), stated on the string's shape. -/
def specDateB (s : String) : Bool :=
  match s.data with
  | [y1, y2, y3, y4, '-', m1, m2, '-', d1, d2] =>
    if isDigitChar y1 ∧ isDigitChar y2 ∧ isDigitChar y3 ∧ isDigitChar y4 ∧
       isDigitChar m1 ∧ isDigitChar m2 ∧ isDigitChar d1 ∧ isDigitChar d2 then
      let y := 1000 * dv y1 + 100 * dv y2 + 10 * dv y3 + dv y4
      let mo := 10 * dv m1 + dv m2
      let d := 10 * dv d1 + dv d2
      if 1 ≤ mo ∧ mo ≤ 12 ∧ 1 ≤ d ∧ d ≤ daysInMonth y mo then true else false
    else false
  | _ => false

/-- The claim's per-item checks, first failure wins (same failure shapes
as the code, currency format stated on the string's shape). -/
def specItemsFirstFailure (i : Nat) : List Item → Option ValidationError
  | [] => none
  | item :: rest =>
    if item.shortDescription = "" then
      some (.missingField ("items[" ++ itemIdxString i ++ "].shortDescription"))
    else if item.price = "" then
      some (.missingField ("items[" ++ itemIdxString i ++ "].price"))
    else if !specCurrencyB item.price then
      some (.invalidFormat ("items[" ++ itemIdxString i ++ "].price") item.price)
    else specItemsFirstFailure (i + 1) rest

/-- The claim's ordered check list, parameterized by the reading of the
`purchaseTime` format: non-empty retailer/purchaseDate/purchaseTime/total,
non-empty items, calendar date, time format, currency total, then the
items in order; the first failing check produces the structured failure. -/
def specFirstFailure (timeOK : String → Bool) (r : Receipt) : Option ValidationError :=
  if r.retailer = "" then some (.missingField "retailer")
  else if r.purchaseDate = "" then some (.missingField "purchaseDate")
  else if r.purchaseTime = "" then some (.missingField "purchaseTime")
  else if r.total = "" then some (.missingField "total")
  else if r.items = [] then some (.missingField "items")
  else if !specDateB r.purchaseDate then some (.invalidFormat "purchaseDate" r.purchaseDate)
  else if !timeOK r.purchaseTime then some (.invalidFormat "purchaseTime" r.purchaseTime)
  else if !specCurrencyB r.total then some (.invalidFormat "total" r.total)
  else specItemsFirstFailure 0 r.items

/-! ## Helper lemmas: digits and characters -/

set_option maxRecDepth 10000

set_option maxHeartbeats 1600000

theorem dv_le_nine {c : Char} (h : isDigitChar c = true) : dv c ≤ 9 := by
  simp [isDigitChar] at h
  simp [dv]
  omega

theorem isDigitChar_colon : isDigitChar ':' = false := by decide

theorem isDigitChar_dot : isDigitChar '.' = false := by decide

theorem digit_ne_dot {c : Char} (h : isDigitChar c = true) : c ≠ '.' := by
  rintro rfl
  simp [isDigitChar] at h

theorem getnum2_true_eq (cs : List Char) :
    getnum2 true cs = match cs with
      | c1 :: c2 :: rest =>
        if isDigitChar c1 && isDigitChar c2 then some (10 * dv c1 + dv c2, rest) else none
      | _ => none := by
  rcases cs with _ | ⟨c1, _ | ⟨c2, rest⟩⟩ <;>
    simp [getnum2] <;> by_cases h1 : isDigitChar c1 <;> by_cases h2 : isDigitChar c2 <;> simp_all

/-- The code's time check (`time.Parse("15:04", ·)` succeeding) accepts
exactly the strings of shape `H:MM` or `HH:MM` with hour 0–23, minute
0–59. -/
theorem parseHM_isSome_eq (s : String) : (parseHM s).isSome = lenientTimeB s := by
  rcases hd : s.data with _ | ⟨c1, _ | ⟨c2, _ | ⟨c3, _ | ⟨c4, _ | ⟨c5, rest⟩⟩⟩⟩⟩
  · simp [parseHM, lenientTimeB, strictTimeB, getnum2, hd]
  · by_cases h1 : isDigitChar c1 <;>
      simp_all [parseHM, lenientTimeB, strictTimeB, getnum2, hd] <;>
      (try intro h) <;> simp_all
  · by_cases h1 : isDigitChar c1 <;> by_cases h2 : isDigitChar c2 <;>
      by_cases e2 : c2 = ':' <;>
      simp_all [parseHM, lenientTimeB, strictTimeB, getnum2, hd, isDigitChar_colon] <;>
      (try intro h) <;> simp_all
  · by_cases h1 : isDigitChar c1 <;> by_cases h2 : isDigitChar c2 <;>
      by_cases e2 : c2 = ':' <;> by_cases e3 : c3 = ':' <;> by_cases h3 : isDigitChar c3 <;>
      simp_all [parseHM, lenientTimeB, strictTimeB, getnum2, hd, isDigitChar_colon] <;>
      (try intro h) <;> simp_all
  · by_cases h1 : isDigitChar c1 <;> by_cases h2 : isDigitChar c2 <;>
      by_cases e2 : c2 = ':' <;> by_cases e3 : c3 = ':' <;> by_cases h3 : isDigitChar c3 <;>
      by_cases h4 : isDigitChar c4 <;>
      simp_all [parseHM, lenientTimeB, strictTimeB, getnum2, hd, isDigitChar_colon] <;>
      (try intro h) <;> (try simp_all) <;> (try omega) <;>
      (try (have k1 := dv_le_nine h1; split_ifs <;> simp_all <;> omega))
  · by_cases h1 : isDigitChar c1 <;> by_cases h2 : isDigitChar c2 <;>
      by_cases e2 : c2 = ':' <;> by_cases e3 : c3 = ':' <;> by_cases h3 : isDigitChar c3 <;>
      by_cases h4 : isDigitChar c4 <;> by_cases h5 : isDigitChar c5 <;>
      rcases rest with _ | ⟨c6, rest2⟩ <;>
      simp_all [parseHM, lenientTimeB, strictTimeB, getnum2, hd, isDigitChar_colon] <;>
      (try intro h) <;> (try simp_all) <;> (try omega) <;>
      (try (split_ifs <;> simp_all <;> omega))

/-- The code's date check (`time.Parse("2006-01-02", ·)` succeeding)
accepts exactly the strings matching `YYYY-MM-DD` that denote a real
calendar date. -/
theorem parseDate_isSome_eq (s : String) : (parseDate s).isSome = specDateB s := by
  rcases hd : s.data with _ | ⟨y1, _ | ⟨y2, _ | ⟨y3, _ | ⟨y4, _ | ⟨c5, _ | ⟨m1, _ | ⟨m2, _ | ⟨c8, _ | ⟨d1, _ | ⟨d2, rest⟩⟩⟩⟩⟩⟩⟩⟩⟩⟩ <;>
    simp only [parseDate, specDateB, getnum2_true_eq, hd] <;>
    (try simp) <;>
    (try by_cases hy : (isDigitChar y1 && isDigitChar y2 && isDigitChar y3 && isDigitChar y4) = true) <;>
    (try by_cases e5 : c5 = '-') <;>
    (try by_cases hm : (isDigitChar m1 && isDigitChar m2) = true) <;>
    (try by_cases e8 : c8 = '-') <;>
    (try by_cases hd2 : (isDigitChar d1 && isDigitChar d2) = true) <;>
    (try rcases rest with _ | ⟨c11, rest2⟩) <;>
    (try simp_all) <;> (try omega) <;> (try (split_ifs <;> simp_all <;> omega))

/-- Shape of the strings matched by the tail matcher of `^\d+\.\d{2}$`. -/
theorem matchCurrencyRest_true (cs : List Char) :
    matchCurrencyRest cs = true ↔
      ∃ ds d1 d2, cs = ds ++ ['.', d1, d2] ∧ ds.all isDigitChar = true ∧
        isDigitChar d1 = true ∧ isDigitChar d2 = true := by
  induction cs with
  | nil => simp [matchCurrencyRest]
  | cons c cs ih =>
    by_cases hc : c = '.'
    · subst hc
      rcases cs with _ | ⟨a, _ | ⟨b, _ | ⟨x, r⟩⟩⟩
      · constructor
        · intro h
          simp [matchCurrencyRest] at h
        · rintro ⟨ds, d1, d2, heq, hall, h1, h2⟩
          rcases ds with _ | ⟨c0, ds'⟩
          · simp at heq
          · simp at heq
      · constructor
        · intro h
          simp [matchCurrencyRest] at h
        · rintro ⟨ds, d1, d2, heq, hall, h1, h2⟩
          rcases ds with _ | ⟨c0, ds'⟩
          · simp at heq
          · simp at heq
            have := congrArg List.length heq.2
            simp at this
      · simp only [matchCurrencyRest, if_pos rfl]
        constructor
        · intro h
          simp at h
          exact ⟨[], a, b, rfl, rfl, h.1, h.2⟩
        · rintro ⟨ds, d1, d2, heq, hall, h1, h2⟩
          rcases ds with _ | ⟨c0, ds'⟩
          · simp at heq
            obtain ⟨rfl, rfl⟩ := heq
            simp [h1, h2]
          · simp at heq
            obtain ⟨rfl, -⟩ := heq
            simp [isDigitChar_dot] at hall
      · constructor
        · intro h
          simp [matchCurrencyRest] at h
        · rintro ⟨ds, d1, d2, heq, hall, h1, h2⟩
          rcases ds with _ | ⟨c0, ds'⟩
          · simp at heq
          · simp at heq
            obtain ⟨rfl, -⟩ := heq
            simp [isDigitChar_dot] at hall
    · simp only [matchCurrencyRest, if_neg hc]
      constructor
      · intro h
        rw [Bool.and_eq_true] at h
        obtain ⟨hcd, hrest⟩ := h
        obtain ⟨ds, d1, d2, heq, hall, h1, h2⟩ := ih.mp hrest
        refine ⟨c :: ds, d1, d2, by simp [heq], ?_, h1, h2⟩
        simp only [List.all_cons, hcd, hall, Bool.and_self]
      · rintro ⟨ds, d1, d2, heq, hall, h1, h2⟩
        rcases ds with _ | ⟨c0, ds'⟩
        · simp at heq
          exact absurd heq.1 hc
        · simp only [List.cons_append, List.cons.injEq] at heq
          obtain ⟨rfl, hrest⟩ := heq
          rw [List.all_cons, Bool.and_eq_true] at hall
          rw [Bool.and_eq_true]
          exact ⟨hall.1, ih.mpr ⟨ds', d1, d2, hrest, hall.2, h1, h2⟩⟩

/-- Shape of the strings accepted by `IsValidCurrencyFormat`
(`^\d+\.\d{2}$`): a non-empty digit run, a dot, two digits. -/
theorem IsValidCurrencyFormat_true (s : String) :
    IsValidCurrencyFormat s = true ↔
      ∃ ds d1 d2, s.data = ds ++ ['.', d1, d2] ∧ ds ≠ [] ∧ ds.all isDigitChar = true ∧
        isDigitChar d1 = true ∧ isDigitChar d2 = true := by
  rcases hd : s.data with _ | ⟨c, cs⟩
  · constructor
    · intro h
      simp [IsValidCurrencyFormat, hd] at h
    · rintro ⟨ds, d1, d2, heq, -⟩
      have := congrArg List.length heq
      simp at this
  · have hrw : IsValidCurrencyFormat s = (isDigitChar c && matchCurrencyRest cs) := by
      simp [IsValidCurrencyFormat, hd]
    rw [hrw, Bool.and_eq_true, matchCurrencyRest_true]
    constructor
    · rintro ⟨hcd, ds, d1, d2, heq, hall, h1, h2⟩
      refine ⟨c :: ds, d1, d2, by simp [heq], by simp, ?_, h1, h2⟩
      simp only [List.all_cons, hcd, hall, Bool.and_self]
    · rintro ⟨ds, d1, d2, heq, hne, hall, h1, h2⟩
      rcases ds with _ | ⟨c0, ds'⟩
      · exact absurd rfl hne
      · simp only [List.cons_append, List.cons.injEq] at heq
        obtain ⟨rfl, hrest⟩ := heq
        rw [List.all_cons, Bool.and_eq_true] at hall
        exact ⟨hall.1, ds', d1, d2, hrest, hall.2, h1, h2⟩

/-- The spec-side currency predicate accepts exactly the same shapes. -/
theorem specCurrencyB_true (s : String) :
    specCurrencyB s = true ↔
      ∃ ds d1 d2, s.data = ds ++ ['.', d1, d2] ∧ ds ≠ [] ∧ ds.all isDigitChar = true ∧
        isDigitChar d1 = true ∧ isDigitChar d2 = true := by
  have hs : s.data = s.data.reverse.reverse := (List.reverse_reverse _).symm
  rcases hr : s.data.reverse with _ | ⟨a, _ | ⟨b, _ | ⟨c, rest⟩⟩⟩
  · rw [hr] at hs
    simp at hs
    constructor
    · intro h
      simp [specCurrencyB, hr] at h
    · rintro ⟨ds, d1, d2, heq, -⟩
      rw [hs] at heq
      have := congrArg List.length heq
      simp at this
  · rw [hr] at hs
    simp at hs
    constructor
    · intro h
      simp [specCurrencyB, hr] at h
    · rintro ⟨ds, d1, d2, heq, -⟩
      rw [hs] at heq
      have := congrArg List.length heq
      simp at this
  · rw [hr] at hs
    simp at hs
    constructor
    · intro h
      simp [specCurrencyB, hr] at h
    · rintro ⟨ds, d1, d2, heq, -⟩
      rw [hs] at heq
      have := congrArg List.length heq
      simp at this
  · rw [hr] at hs
    by_cases e : c = '.'
    · subst e
      have hspec : specCurrencyB s =
          (isDigitChar b && isDigitChar a && !rest.isEmpty && rest.all isDigitChar) := by
        simp [specCurrencyB, hr]
      rw [hspec]
      constructor
      · intro h
        simp only [Bool.and_eq_true, Bool.not_eq_true'] at h
        obtain ⟨⟨⟨h1, h2⟩, hne⟩, hall⟩ := h
        refine ⟨rest.reverse, b, a, by simpa using hs, ?_, ?_, h1, h2⟩
        · simp only [ne_eq, List.reverse_eq_nil_iff]
          intro hcon
          rw [hcon] at hne
          simp at hne
        · rw [List.all_eq_true] at hall ⊢
          intro x hx
          exact hall x (List.mem_reverse.mp hx)
      · rintro ⟨ds, d1, d2, heq, hne, hall, h1, h2⟩
        have hrev := congrArg List.reverse heq
        rw [← hr] at hs
        rw [List.reverse_append] at hrev
        simp only [hr] at hrev
        simp at hrev
        obtain ⟨rfl, rfl, hrest⟩ := hrev
        simp only [Bool.and_eq_true, Bool.not_eq_true']
        refine ⟨⟨⟨h1, h2⟩, ?_⟩, ?_⟩
        · rw [hrest]
          simp [hne]
        · rw [hrest]
          rw [List.all_eq_true] at hall ⊢
          intro x hx
          exact hall x (List.mem_reverse.mp hx)
    · constructor
      · intro h
        simp [specCurrencyB, hr, e] at h
      · rintro ⟨ds, d1, d2, heq, hne, hall, h1, h2⟩
        have hrev := congrArg List.reverse heq
        rw [hr, List.reverse_append] at hrev
        simp at hrev
        exact absurd hrev.2.2.1 e

/-- The code's currency check and the spec's wording agree on every
string. -/
theorem IsValidCurrencyFormat_eq_spec (s : String) :
    IsValidCurrencyFormat s = specCurrencyB s := by
  rw [Bool.eq_iff_iff, IsValidCurrencyFormat_true, specCurrencyB_true]

/-- On a currency-shaped string, the `^\d+\.00` matcher tail accepts
exactly the fraction `00`. -/
theorem matchRoundRest_append (ds : List Char) (d1 d2 : Char)
    (hall : ds.all isDigitChar = true) :
    matchRoundRest (ds ++ ['.', d1, d2]) = (decide (d1 = '0') && decide (d2 = '0')) := by
  induction ds with
  | nil =>
    simp only [List.nil_append, matchRoundRest, if_pos rfl]
    by_cases e1 : d1 = '0' <;> by_cases e2 : d2 = '0' <;> simp_all
  | cons c ds' ih =>
    rw [List.all_cons, Bool.and_eq_true] at hall
    have hc : c ≠ '.' := digit_ne_dot hall.1
    simp only [List.cons_append, matchRoundRest, if_neg hc, hall.1, Bool.true_and]
    simpa using ih hall.2

/-- The per-item validation loop agrees with the claim's per-item check
list at every starting index. -/
theorem validateItems_eq_spec (i : Nat) (items : List Item) :
    validateItems i items = specItemsFirstFailure i items := by
  induction items generalizing i with
  | nil => rfl
  | cons item rest ih =>
    simp only [validateItems, specItemsFirstFailure, IsValidCurrencyFormat_eq_spec, ih]

/-- The code's validator is exactly the claim's ordered first-failure
check list, with the `purchaseTime` format read as the code accepts it
(one- or two-digit hour). -/
theorem validateReceipt_eq_spec (r : Receipt) :
    validateReceipt r = specFirstFailure lenientTimeB r := by
  simp only [validateReceipt, specFirstFailure, IsValidDateFormat, IsValidTimeFormat,
    parseHM_isSome_eq, parseDate_isSome_eq, IsValidCurrencyFormat_eq_spec, validateItems_eq_spec]

/-! ## Helper lemmas: sign facts for the float model -/

theorem intOfNat_nonneg (n : ℕ) : 0 ≤ Int.ofNat n := Int.ofNat_nonneg n

theorem qmulPow2_nonneg {q : ℚ} (h : 0 ≤ q) (e : ℤ) : 0 ≤ qmulPow2 q e := by
  have hn : 0 ≤ q.num := Rat.num_nonneg.mpr h
  unfold qmulPow2
  split_ifs
  · exact Rat.divInt_nonneg (mul_nonneg hn (intOfNat_nonneg _)) (intOfNat_nonneg _)
  · exact Rat.divInt_nonneg hn (intOfNat_nonneg _)

theorem roundHalfEvenQ_nonneg {q : ℚ} (h : 0 ≤ q) : 0 ≤ roundHalfEvenQ q := by
  have hf : 0 ≤ Rat.floor q := by
    rw [Rat.le_floor]
    exact_mod_cast h
  simp only [roundHalfEvenQ]
  split_ifs <;> omega

theorem float64RoundPos_nonneg {q : ℚ} (h : 0 ≤ q) : 0 ≤ float64RoundPos q := by
  simp only [float64RoundPos]
  exact qmulPow2_nonneg
    (Rat.divInt_nonneg (roundHalfEvenQ_nonneg (qmulPow2_nonneg h _)) (by norm_num)) _

theorem float64Round_nonneg {q : ℚ} (h : 0 ≤ q) : 0 ≤ float64Round q := by
  unfold float64Round
  split_ifs with h0 hneg
  · exact le_refl 0
  · linarith
  · exact float64RoundPos_nonneg h

theorem parseUnsignedQ_nonneg {cs : List Char} {q : ℚ}
    (h : parseUnsignedQ cs = some q) : 0 ≤ q := by
  rcases htd : takeDigits cs with ⟨ip, rest⟩
  simp only [parseUnsignedQ, htd] at h
  rcases rest with _ | ⟨c, rest2⟩
  · split_ifs at h
    obtain rfl := Option.some.inj h
    exact Rat.divInt_nonneg (intOfNat_nonneg _) (by norm_num)
  · by_cases hc : c = '.'
    · subst hc
      rcases htd2 : takeDigits rest2 with ⟨fp, rest3⟩
      simp only [htd2] at h
      split_ifs at h
      obtain rfl := Option.some.inj h
      exact Rat.divInt_nonneg (intOfNat_nonneg _) (intOfNat_nonneg _)
    · simp [hc] at h

theorem roundParsed_nonneg {q p : ℚ} (hq : 0 ≤ q) (h : roundParsed q = some p) : 0 ≤ p := by
  unfold roundParsed at h
  split_ifs at h with h1 h2 h3
  all_goals first
    | (obtain rfl := Option.some.inj h; exact float64Round_nonneg hq)
    | linarith
    | (exact absurd h (by simp))

/-- C1 (code bug): the receipt with the validated total `"2.01"` is awarded
the 25 points of rule R3 although 2.01 — exactly 201 cents, and
`201 % 25 = 1` — is not a multiple of 0.25: `strconv.ParseFloat` returns
the binary64 value 1131529406376837/2^49 < 2.01, multiplying by 100 gives
a float just below 201, and Go's `int` conversion truncates it to 200,
which is divisible by 25.  This contradicts the claim's (and the code
comment's) `iff` with exact multiples of 0.25. -/
theorem claim_C1_r3_code_bug :
    IsValidCurrencyFormat "2.01" = true ∧
    parseUnsignedQ "2.01".data = some (Rat.divInt 201 100) ∧
    (201 : ℤ) % 25 = 1 ∧
    parseGoFloat "2.01" = some (Rat.divInt 1131529406376837 562949953421312) ∧
    isMultipleOf25Cents "2.01" = true ∧
    rule3Points
      { retailer := "Shop", purchaseDate := "2022-01-01", purchaseTime := "13:01",
        items := [⟨"ab", "1.00"⟩], total := "2.01" } = 25 := by
  decide

/-- C3 (code bug): for the qualifying item description `"XYZ"` and the
validated price `"259051130938510.01"`, the exact `ceil(price * 0.2)` is
`⌈25905113093851001/500⌉ = 51810226187703`, but the code contributes
51810226187702: the nearest binary64 value to the price is exactly
259051130938510, the `.01` is lost, and the genuinely fractional exact
result is rounded DOWN, contradicting "rounds up, never down".  The
claim's own examples (`"6.49"` → 2, `"12.00"` → 3, `"10.00"` → 2) and the
trimming/non-qualifying cases do hold. -/
theorem claim_C3_r5_code_bug :
    IsValidCurrencyFormat "259051130938510.01" = true ∧
    parseUnsignedQ "259051130938510.01".data = some (Rat.divInt 25905113093851001 100) ∧
    goCeil (qmul (Rat.divInt 25905113093851001 100) (Rat.divInt 1 5)) = 51810226187703 ∧
    itemPoints ⟨"XYZ", "259051130938510.01"⟩ = 51810226187702 ∧
    itemPoints ⟨"XYZ", "6.49"⟩ = 2 ∧
    itemPoints ⟨"XYZ", "12.00"⟩ = 3 ∧
    itemPoints ⟨"XYZ", "10.00"⟩ = 2 ∧
    itemPoints ⟨" abc ", "6.49"⟩ = 2 ∧
    itemPoints ⟨"WXYZ", "6.49"⟩ = 0 := by
  decide

/-- C2: on every validated total (shape: non-empty digits, `.`, two
digits), rule R2 contributes 50 exactly when the two fraction digits are
`00` — a pure string test — and contributes 0 otherwise; consistently with
R3, the total `"100.00"` earns R2+R3 = 75, `"100.25"` earns only R3 = 25,
and `"100.10"` earns neither. -/
theorem claim_C2_round_dollar :
    (∀ (r : Receipt) (ds : List Char) (d1 d2 : Char),
      r.total.data = ds ++ ['.', d1, d2] → ds ≠ [] → ds.all isDigitChar = true →
      isDigitChar d1 = true → isDigitChar d2 = true →
      ((rule2Points r = 50 ↔ (d1 = '0' ∧ d2 = '0')) ∧
       (rule2Points r = 0 ∨ rule2Points r = 50))) ∧
    (∀ r : Receipt, r.total = "100.00" → rule2Points r + rule3Points r = 75) ∧
    (∀ r : Receipt, r.total = "100.25" → rule2Points r + rule3Points r = 25) ∧
    (∀ r : Receipt, r.total = "100.10" → rule2Points r + rule3Points r = 0) := by
  refine ⟨?_, ?_, ?_, ?_⟩
  · intro r ds d1 d2 heq hne hall h1 h2
    rcases ds with _ | ⟨c, ds'⟩
    · exact absurd rfl hne
    · rw [List.all_cons, Bool.and_eq_true] at hall
      have hrda : isRoundDollarAmount r.total = (decide (d1 = '0') && decide (d2 = '0')) := by
        simp only [isRoundDollarAmount, heq, List.cons_append]
        rw [matchRoundRest_append ds' d1 d2 hall.2]
        simp [hall.1]
      constructor
      · rw [rule2Points, hrda]
        by_cases e1 : d1 = '0' <;> by_cases e2 : d2 = '0' <;> simp [e1, e2]
      · rw [rule2Points]
        split_ifs <;> simp
  · intro r h
    simp only [rule2Points, rule3Points, h]
    decide
  · intro r h
    simp only [rule2Points, rule3Points, h]
    decide
  · intro r h
    simp only [rule2Points, rule3Points, h]
    decide

/-- C2 witness: the total `"35.35"` (digits `35`, fraction digits `3`,`5`)
earns no R2 points, by the general characterization. -/
theorem claim_C2_round_dollar_witness :
    rule2Points
      { retailer := "Target", purchaseDate := "2022-01-01", purchaseTime := "13:01",
        items := [⟨"ab", "1.00"⟩], total := "35.35" } = 0 := by
  have h := claim_C2_round_dollar.1
    { retailer := "Target", purchaseDate := "2022-01-01", purchaseTime := "13:01",
      items := [⟨"ab", "1.00"⟩], total := "35.35" }
    ['3', '5'] '3' '5' rfl (by decide) (by decide) (by decide) (by decide)
  rcases h.2 with h0 | h50
  · exact h0
  · exact absurd (h.1.mp h50) (by decide)

/-- C4: rule R7 contributes 10 exactly when the parsed purchase time `h:m`
satisfies `840 < h*60+m < 960`, both bounds exclusive, and 0 otherwise;
concretely `"14:00"` and `"16:00"` earn 0 while `"14:01"` and `"15:59"`
earn 10. -/
theorem claim_C4_time_window :
    (∀ (r : Receipt) (h m : Nat), parseHM r.purchaseTime = some (h, m) →
      ((rule7Points r = 10 ↔ (840 < h * 60 + m ∧ h * 60 + m < 960)) ∧
       (rule7Points r = 0 ∨ rule7Points r = 10))) ∧
    (∀ r : Receipt, r.purchaseTime = "14:00" → rule7Points r = 0) ∧
    (∀ r : Receipt, r.purchaseTime = "14:01" → rule7Points r = 10) ∧
    (∀ r : Receipt, r.purchaseTime = "15:59" → rule7Points r = 10) ∧
    (∀ r : Receipt, r.purchaseTime = "16:00" → rule7Points r = 0) := by
  refine ⟨?_, ?_, ?_, ?_, ?_⟩
  · intro r h m hp
    have hrw : isTimeBetween2And4PM r.purchaseTime =
        (decide (840 < h * 60 + m) && decide (h * 60 + m < 960)) := by
      simp [isTimeBetween2And4PM, hp]
    constructor
    · rw [rule7Points, hrw]
      by_cases a1 : 840 < h * 60 + m <;> by_cases a2 : h * 60 + m < 960 <;> simp [a1, a2]
    · rw [rule7Points]
      split_ifs <;> simp
  · intro r h
    simp only [rule7Points, h]
    decide
  · intro r h
    simp only [rule7Points, h]
    decide
  · intro r h
    simp only [rule7Points, h]
    decide
  · intro r h
    simp only [rule7Points, h]
    decide

/-- C4 witness: the purchase time `"15:59"` earns the 10 points of R7. -/
theorem claim_C4_time_window_witness :
    rule7Points
      { retailer := "S", purchaseDate := "2022-01-01", purchaseTime := "15:59",
        items := [⟨"ab", "1.00"⟩], total := "1.00" } = 10 :=
  claim_C4_time_window.2.2.2.1 _ rfl

/-- C5 counterexample: the claim's own example fails — `"-5.00"` parses to
the negative value −5, yet it does NOT pass format validation, since
`^\d+\.\d{2}$` admits no sign. -/
theorem claim_C5_counterexample :
    parseGoFloat "-5.00" = some (-5) ∧ IsValidCurrencyFormat "-5.00" = false := by
  decide

/-- C5 (amended): validation performs no numeric-range check beyond the
format pattern — an arbitrarily large amount passes — but no string
denoting a negative value can pass the currency format, because the
pattern requires a leading digit. -/
theorem claim_C5_amended :
    IsValidCurrencyFormat "999999999999999999999.99" = true ∧
    (∀ (s : String) (q : ℚ), parseGoFloat s = some q → q < 0 →
      IsValidCurrencyFormat s = false) := by
  constructor
  · decide
  · intro s q hp hneg
    rcases hd : s.data with _ | ⟨c, cs⟩
    · simp [parseGoFloat, hd] at hp
    · by_cases hplus : c = '+'
      · subst hplus
        simp [IsValidCurrencyFormat, hd, isDigitChar]
      · by_cases hminus : c = '-'
        · subst hminus
          simp [IsValidCurrencyFormat, hd, isDigitChar]
        · exfalso
          simp only [parseGoFloat, hd, if_neg hplus, if_neg hminus] at hp
          rcases hp0 : parseUnsignedQ (c :: cs) with _ | q0 <;> rw [hp0] at hp
          · simp [Option.bind] at hp
          · simp only [Option.bind] at hp
            have := roundParsed_nonneg (parseUnsignedQ_nonneg hp0) hp
            linarith

/-- C5 witness: instantiating the amended claim at `"-5.00"`. -/
theorem claim_C5_amended_witness :
    parseGoFloat "-5.00" = some (-5) ∧ ((-5 : ℚ) < 0) ∧
    IsValidCurrencyFormat "-5.00" = false :=
  ⟨by decide, by decide, claim_C5_amended.2 "-5.00" (-5) (by decide) (by decide)⟩

/-- C6 counterexample: the fully valid receipt below with purchase time
`"9:30"` passes the code's validation, while the claim's strict reading of
the check list (24-hour `HH:MM`, two-digit hour) would reject it as
`InvalidFormat("purchaseTime", "9:30")`. -/
theorem claim_C6_counterexample :
    validateReceipt
      { retailer := "Market", purchaseDate := "2022-01-01", purchaseTime := "9:30",
        items := [⟨"ab", "1.00"⟩], total := "1.00" } = none ∧
    specFirstFailure strictTimeB
      { retailer := "Market", purchaseDate := "2022-01-01", purchaseTime := "9:30",
        items := [⟨"ab", "1.00"⟩], total := "1.00" } =
      some (.invalidFormat "purchaseTime" "9:30") := by
  decide

/-- C6 (amended): on every receipt the validator returns exactly the first
failure of the claim's ordered check list — non-empty retailer /
purchaseDate / purchaseTime / total, non-empty items, real calendar date
matching `YYYY-MM-DD`, 24-hour time, currency-format total, then each
item's description and price in order — with the `purchaseTime` format
read as the code accepts it: one- OR two-digit hour 0–23 and two-digit
minute 00–59. -/
theorem claim_C6_amended (r : Receipt) :
    validateReceipt r = specFirstFailure lenientTimeB r :=
  validateReceipt_eq_spec r

/-- C8: storing a scored receipt under a freshly generated identifier and
immediately looking that identifier up yields exactly the score computed
at process time. -/
theorem claim_C8_round_trip (rs : ReceiptStore) (fresh : String) (receipt : Receipt) :
    getPointsOf (processStore rs fresh receipt).1 (processStore rs fresh receipt).2 =
      some (CalculatePoints receipt) := by
  simp [processStore, AddReceipt, getPointsOf, GetReceipt]

/-- C9: the points engine is total — any field that fails to parse (an
item price for R5, the purchase date for R6, the purchase time for R7)
silently contributes 0 points instead of failing. -/
theorem claim_C9_totality (item : Item) (r : Receipt) :
    (parseGoFloat item.price = none → itemPoints item = 0) ∧
    (parseDate r.purchaseDate = none → rule6Points r = 0) ∧
    (parseHM r.purchaseTime = none → rule7Points r = 0) := by
  refine ⟨?_, ?_, ?_⟩
  · intro h
    simp [itemPoints, h]
  · intro h
    simp [rule6Points, isDayOdd, h]
  · intro h
    simp [rule7Points, isTimeBetween2And4PM, h]

/-- C9 witness: a receipt whose price, date and time all fail to parse
still gets 0 from each of those rules. -/
theorem claim_C9_totality_witness :
    parseGoFloat "abc" = none ∧ parseDate "not-a-date" = none ∧ parseHM "99:99" = none ∧
    itemPoints ⟨"abc", "abc"⟩ = 0 ∧
    rule6Points
      { retailer := "", purchaseDate := "not-a-date", purchaseTime := "99:99",
        items := [⟨"abc", "abc"⟩], total := "abc" } = 0 ∧
    rule7Points
      { retailer := "", purchaseDate := "not-a-date", purchaseTime := "99:99",
        items := [⟨"abc", "abc"⟩], total := "abc" } = 0 := by
  refine ⟨by decide, by decide, by decide, ?_, ?_, ?_⟩
  · exact (claim_C9_totality ⟨"abc", "abc"⟩
      { retailer := "", purchaseDate := "not-a-date", purchaseTime := "99:99",
        items := [⟨"abc", "abc"⟩], total := "abc" }).1 (by decide)
  · exact (claim_C9_totality ⟨"abc", "abc"⟩
      { retailer := "", purchaseDate := "not-a-date", purchaseTime := "99:99",
        items := [⟨"abc", "abc"⟩], total := "abc" }).2.1 (by decide)
  · exact (claim_C9_totality ⟨"abc", "abc"⟩
      { retailer := "", purchaseDate := "not-a-date", purchaseTime := "99:99",
        items := [⟨"abc", "abc"⟩], total := "abc" }).2.2 (by decide)

/-- C10: rule R5 measures the trimmed description in UTF-8 bytes — `"éa"`
is 2 code points but 3 bytes, so it qualifies and earns points, while
`"abé"` is 3 code points but 4 bytes and earns none — whereas rule R1
counts code points: the 2-byte retailer `"é"` earns exactly 1 point. -/
theorem claim_C10_byte_vs_codepoint :
    itemPoints ⟨"éa", "10.00"⟩ = 2 ∧
    utf8Len (goTrimSpace "éa".data) = 3 ∧
    "éa".data.length = 2 ∧
    itemPoints ⟨"abé", "10.00"⟩ = 0 ∧
    utf8Len (goTrimSpace "abé".data) = 4 ∧
    "abé".data.length = 3 ∧
    countAlphanumeric "é" = 1 ∧
    utf8Len "é".data = 2 := by
  decide
